import Mathlib

/-!
Verification of components/interactive_image.py (leaf-tip detector UI).

The module has three stateless components:
InteractiveImageEditor.display_image_with_points (point overlay with click
mapping), ROISelector.draw_roi_selector (canvas rectangle to image-space
rectangle), and ManualPointEditor.edit_points_interface (add/remove points
via coordinate input and label selection).

Embedding conventions: Python numbers (ints and floats) are modelled as
exact rationals; Python int() applied to a number is truncation toward
zero (pytrunc); Python strings are modelled by Lean strings or by their
character lists; widget interaction (which buttons were pressed, which
click was registered, which rectangle objects exist on the canvas) is
passed in as explicit arguments, mirroring the values the widgets hand
back to the code.
-/

/-- A detection record, a dict with keys x, y, conf (default 1.0),
manual (default False) and method (default the empty string). -/
structure Detection where
  x : ℚ
  y : ℚ
  conf : ℚ := 1
  manual : Bool := false
  method : String := ""

/-- Python int() applied to a rational number: truncation toward zero. -/
def pytrunc (q : ℚ) : ℤ := if 0 ≤ q then ⌊q⌋ else ⌈q⌉

/-- Python substring containment test, sub in s. -/
def strContains (sub s : String) : Bool := decide (sub.data <:+: s.data)

/-- Forward rendering transform of a detection y-coordinate
(source line 58): the y axis of the plot grows upward, so the plotted
value is image.height - d.y. -/
def plotted_y (imageHeight y : ℚ) : ℚ := imageHeight - y

/-- Plotted y-coordinates of all detections (source line 58). -/
def y_coords (imageHeight : ℚ) (detections : List Detection) : List ℚ :=
  detections.map (fun d => plotted_y imageHeight d.y)

/-- Inverse click-mapping transform (source line 124): a click at plot
y-coordinate clickY corresponds to image y-coordinate
image.height - clickY. -/
def click_to_image_y (imageHeight clickY : ℚ) : ℚ := imageHeight - clickY

/-- Marker color of one detection (source lines 63 to 71): green when the
manual flag is set, else red when the method contains grid, else blue when
the method contains roi, else red. -/
def point_color (d : Detection) : String :=
  if d.manual then "green"
  else if strContains "grid" d.method then "red"
  else if strContains "roi" d.method then "blue"
  else "red"

/-- Marker colors of all detections (source lines 62 to 71). -/
def colors (detections : List Detection) : List String :=
  detections.map point_color

/-- The click payload read back from the chart: the x and y values of the
click in plot coordinates (the dict lookups with default 0 already
applied). -/
structure ClickData where
  x : ℚ
  y : ℚ

/-- Return value of display_image_with_points (source lines 30 and 106):
clicked_point, action and roi, each possibly None. -/
structure ImageEditorResult where
  clicked_point : Option (ℚ × ℚ)
  action : Option String
  roi : Option (ℤ × ℤ × ℤ × ℤ)

/-- InteractiveImageEditor.display_image_with_points, source lines 22 to
133, restricted to the data it returns. The figure construction is pure
rendering; the returned dict starts as all None and is filled in only
when editing is enabled, a click was registered, and the add or remove
button is active. add_mode, remove_mode and roi_mode are the values of
the three st.button calls; clicked_data is None when the chart reported
no click. -/
def display_image_with_points (imageHeight : ℚ) (_detections : List Detection)
    (_height : ℚ) (enable_editing : Bool)
    (add_mode remove_mode _roi_mode : Bool)
    (clicked_data : Option ClickData) : ImageEditorResult :=
  let result : ImageEditorResult := ⟨none, none, none⟩
  if enable_editing then
    match clicked_data with
    | some click_data =>
        let x := click_data.x
        let y := click_to_image_y imageHeight click_data.y
        if add_mode then
          { result with clicked_point := some (x, y), action := some "add" }
        else if remove_mode then
          { result with clicked_point := some (x, y), action := some "remove" }
        else result
    | none => result
  else result

/-- Width of the drawable canvas surface (source line 159):
image.width * (height / image.height) if image.height > height else
image.width. -/
def st_canvas_width (imageWidth imageHeight height : ℚ) : ℚ :=
  if imageHeight > height then imageWidth * (height / imageHeight)
  else imageWidth

/-- One object of canvas_result.json_data, with the fields the code
reads: its type tag and the rectangle geometry in canvas pixels. -/
structure CanvasObject where
  type : String
  left : ℚ
  top : ℚ
  width : ℚ
  height : ℚ

/-- The part of the st_canvas return value the code reads: json_data
(None, or the list of drawn objects) and the first two entries of
image_data.shape (the canvas pixel height and width). -/
structure CanvasResult where
  json_data : Option (List CanvasObject)
  shape0 : ℚ
  shape1 : ℚ

/-- Canvas-to-image remap of one rectangle (source lines 174 to 180):
scale_x = image.width / shape[1], scale_y = image.height / shape[0], and
each of the four corner coordinates is scaled independently and truncated
with int(). -/
def remapRect (imageWidth imageHeight shape1 shape0 : ℚ)
    (rect : CanvasObject) : ℤ × ℤ × ℤ × ℤ :=
  let scale_x := imageWidth / shape1
  let scale_y := imageHeight / shape0
  (pytrunc (rect.left * scale_x),
   pytrunc (rect.top * scale_y),
   pytrunc ((rect.left + rect.width) * scale_x),
   pytrunc ((rect.top + rect.height) * scale_y))

/-- ROISelector.draw_roi_selector, source lines 165 to 186: the value of
roi_coords it returns. None unless json_data is present, the object list
is nonempty, and the last drawn object has type rect; otherwise the
remapped last rectangle. -/
def draw_roi_selector_result (imageWidth imageHeight : ℚ)
    (canvas_result : CanvasResult) : Option (ℤ × ℤ × ℤ × ℤ) :=
  match canvas_result.json_data with
  | none => none
  | some objects =>
    match objects.getLast? with
    | none => none
    | some rect =>
      if rect.type = "rect" then
        some (remapRect imageWidth imageHeight
          canvas_result.shape1 canvas_result.shape0 rect)
      else none

/-- The decimal digit character for a digit value below ten. -/
def digitChar (d : ℕ) : Char := Char.ofNat (48 + d)

/-- Python str() of a nonnegative integer: its decimal digit characters,
most significant first. -/
def pyNatStr (n : ℕ) : List Char :=
  if n = 0 then [Char.ofNat 48]
  else ((Nat.digits 10 n).map digitChar).reverse

/-- Python str() of an integer, with a leading minus sign when
negative. -/
def pyIntStr (z : ℤ) : List Char :=
  if z < 0 then Char.ofNat 45 :: pyNatStr z.natAbs else pyNatStr z.natAbs

/-- Python str.split with a one-character separator: the maximal pieces
between occurrences of the separator, empty pieces kept. -/
def splitOnChar (c : Char) : List Char → List (List Char)
  | [] => [[]]
  | a :: rest =>
      match splitOnChar c rest with
      | [] => [[]]
      | h :: t => if a = c then [] :: h :: t else (a :: h) :: t

/-- Python str.split() with no argument, for strings whose only
whitespace is the space character: split on spaces and drop the empty
pieces. -/
def splitWhitespace (l : List Char) : List (List Char) :=
  (splitOnChar (Char.ofNat 32) l).filter (fun t => !t.isEmpty)

/-- Python int() applied to a string of decimal digits: the decimal
value, or None (a ValueError) when the string is empty or holds a
non-digit. -/
def pyParseInt (l : List Char) : Option ℕ :=
  if l.isEmpty then none
  else if l.all Char.isDigit then
    some (l.foldl (fun acc c => 10 * acc + (c.toNat - 48)) 0)
  else none

/-- The label of detection d at zero-based index i (source line 222),
as a character list:
Point, a space, the one-based index, a colon, and the two
integer-truncated coordinates in parentheses. -/
def formatLabel (i : ℕ) (d : Detection) : List Char :=
  "Point ".data ++ pyNatStr (i + 1) ++ ": (".data ++ pyIntStr (pytrunc d.x)
    ++ ", ".data ++ pyIntStr (pytrunc d.y) ++ ")".data

/-- point_options (source line 222): one label per detection, indexed
from one. -/
def point_options (detections : List Detection) : List (List Char) :=
  detections.enum.map (fun p => formatLabel p.1 p.2)

/-- Index recovery from a selected label (source line 227): split on the
colon, take the part before it, split that on whitespace, take the
second token, parse it as an integer and subtract one. None models the
exceptions int() or the indexing can raise. -/
def parse_point_index (label : List Char) : Option ℤ :=
  let first := (splitOnChar (Char.ofNat 58) label).headD []
  let tokens := splitWhitespace first
  match tokens[1]? with
  | none => none
  | some tk =>
    match pyParseInt tk with
    | none => none
    | some n => some ((n : ℤ) - 1)

/-- Return value of edit_points_interface (source lines 200 and 203):
action, point and index, each possibly None. -/
structure EditResult where
  action : Option String
  point : Option (ℚ × ℚ)
  index : Option ℤ

/-- ManualPointEditor.edit_points_interface, source lines 194 to 233.
add_pressed and remove_pressed are the two st.button values; add_x and
add_y are the number inputs (already clamped by the widget to the image
bounds); selected_index is the position the user has selected in the
selectbox over point_options (the widget only yields positions of actual
options; an out-of-range model value yields the empty, falsy label). The
outer Option is None when the call raises an exception. -/
def edit_points_interface (detections : List Detection)
    (_image_size : ℚ × ℚ) (add_pressed : Bool) (add_x add_y : ℚ)
    (remove_pressed : Bool) (selected_index : ℕ) : Option EditResult :=
  let result : EditResult := ⟨none, none, none⟩
  let result :=
    if add_pressed then
      { result with action := some "add", point := some (add_x, add_y) }
    else result
  if detections.isEmpty then some result
  else
    let options := point_options detections
    let selected_point := options.getD selected_index []
    if remove_pressed && !selected_point.isEmpty then
      match parse_point_index selected_point with
      | none => none
      | some idx =>
        some { result with action := some "remove", index := some idx }
    else some result

/-! ### Helper lemmas -/

lemma splitOnChar_ne_nil (c : Char) (l : List Char) : splitOnChar c l ≠ [] := by
  induction l with
  | nil => simp [splitOnChar]
  | cons a rest ih =>
    simp only [splitOnChar]
    rcases h : splitOnChar c rest with _ | ⟨hd, tl⟩
    · simp
    · by_cases hac : a = c <;> simp [hac]

lemma splitOnChar_append (c : Char) (l1 l2 : List Char) (h : c ∉ l1) :
    splitOnChar c (l1 ++ c :: l2) = l1 :: splitOnChar c l2 := by
  induction l1 with
  | nil =>
    simp only [List.nil_append, splitOnChar]
    rcases hs : splitOnChar c l2 with _ | ⟨hd, tl⟩
    · exact absurd hs (splitOnChar_ne_nil c l2)
    · simp
  | cons a rest ih =>
    have ha : a ≠ c := fun hac => h (by simp [hac])
    have hrest : c ∉ rest := fun hm => h (by simp [hm])
    simp only [List.cons_append, splitOnChar]
    rw [show rest.append (c :: l2) = rest ++ c :: l2 from rfl, ih hrest]
    simp [ha]

lemma splitOnChar_of_not_mem (c : Char) (l : List Char) (h : c ∉ l) :
    splitOnChar c l = [l] := by
  induction l with
  | nil => simp [splitOnChar]
  | cons a rest ih =>
    have ha : a ≠ c := fun hac => h (by simp [hac])
    have hrest : c ∉ rest := fun hm => h (by simp [hm])
    simp [splitOnChar, ih hrest, ha]

lemma digitChar_isDigit {d : ℕ} (h : d < 10) : (digitChar d).isDigit = true := by
  interval_cases d <;> decide

lemma digitChar_toNat {d : ℕ} (h : d < 10) : (digitChar d).toNat - 48 = d := by
  interval_cases d <;> decide

lemma digitChar_ne_colon {d : ℕ} (h : d < 10) : digitChar d ≠ Char.ofNat 58 := by
  interval_cases d <;> decide

lemma digitChar_ne_space {d : ℕ} (h : d < 10) : digitChar d ≠ Char.ofNat 32 := by
  interval_cases d <;> decide

lemma foldr_digits_eq_ofDigits (L : List ℕ) (h : ∀ d ∈ L, d < 10) :
    L.foldr (fun d y => 10 * y + ((digitChar d).toNat - 48)) 0
      = Nat.ofDigits 10 L := by
  induction L with
  | nil => simp [Nat.ofDigits]
  | cons d L ih =>
    have hd : d < 10 := h d (by simp)
    have hL : ∀ x ∈ L, x < 10 := fun x hx => h x (by simp [hx])
    simp only [List.foldr_cons, ih hL, Nat.ofDigits_cons, digitChar_toNat hd]
    ring

lemma pyNatStr_all_digits (n : ℕ) : ∀ ch ∈ pyNatStr n, ch.isDigit = true := by
  intro ch hch
  unfold pyNatStr at hch
  by_cases h0 : n = 0
  · simp [h0] at hch
    subst hch; decide
  · simp only [h0, if_false, List.mem_reverse, List.mem_map] at hch
    obtain ⟨d, hd, rfl⟩ := hch
    exact digitChar_isDigit (Nat.digits_lt_base (by norm_num) hd)

lemma pyNatStr_ne_nil (n : ℕ) : pyNatStr n ≠ [] := by
  unfold pyNatStr
  by_cases h0 : n = 0
  · simp [h0]
  · simp only [h0, if_false, ne_eq, List.reverse_eq_nil_iff, List.map_eq_nil_iff]
    exact Nat.digits_ne_nil_iff_ne_zero.mpr h0

lemma colon_not_mem_pyNatStr (n : ℕ) : Char.ofNat 58 ∉ pyNatStr n := by
  intro hmem
  unfold pyNatStr at hmem
  by_cases h0 : n = 0
  · simp [h0] at hmem
  · simp only [h0, if_false, List.mem_reverse, List.mem_map] at hmem
    obtain ⟨d, hd, hdc⟩ := hmem
    exact digitChar_ne_colon (Nat.digits_lt_base (by norm_num) hd) hdc

lemma space_not_mem_pyNatStr (n : ℕ) : Char.ofNat 32 ∉ pyNatStr n := by
  intro hmem
  unfold pyNatStr at hmem
  by_cases h0 : n = 0
  · simp [h0] at hmem
  · simp only [h0, if_false, List.mem_reverse, List.mem_map] at hmem
    obtain ⟨d, hd, hdc⟩ := hmem
    exact digitChar_ne_space (Nat.digits_lt_base (by norm_num) hd) hdc

lemma pyParseInt_pyNatStr (n : ℕ) : pyParseInt (pyNatStr n) = some n := by
  by_cases h0 : n = 0
  · subst h0; decide
  · have hne : pyNatStr n ≠ [] := pyNatStr_ne_nil n
    have hdig := pyNatStr_all_digits n
    unfold pyParseInt
    rw [if_neg (by simpa [List.isEmpty_iff] using hne)]
    rw [if_pos (by simpa [List.all_eq_true] using hdig)]
    congr 1
    unfold pyNatStr
    rw [if_neg h0]
    rw [List.foldl_reverse]
    rw [List.foldr_map]
    have := foldr_digits_eq_ofDigits (Nat.digits 10 n)
      (fun d hd => Nat.digits_lt_base (by norm_num) hd)
    simpa [this] using congrArg id (Nat.ofDigits_digits 10 n)

lemma parse_formatLabel (i : ℕ) (d : Detection) :
    parse_point_index (formatLabel i d) = some (i : ℤ) := by
  have hshape : formatLabel i d =
      ("Point ".data ++ pyNatStr (i + 1)) ++ Char.ofNat 58 ::
        (" (".data ++ pyIntStr (pytrunc d.x) ++ ", ".data
          ++ pyIntStr (pytrunc d.y) ++ ")".data) := by
    have hc : ": (".data = Char.ofNat 58 :: " (".data := by decide
    simp [formatLabel, hc, List.append_assoc]
  have hnc : Char.ofNat 58 ∉ "Point ".data ++ pyNatStr (i + 1) := by
    intro hmem
    rcases List.mem_append.mp hmem with hm | hm
    · revert hm; decide
    · exact colon_not_mem_pyNatStr (i + 1) hm
  have hsplit1 : (splitOnChar (Char.ofNat 58) (formatLabel i d)).headD [] =
      "Point ".data ++ pyNatStr (i + 1) := by
    rw [hshape, splitOnChar_append _ _ _ hnc]
    rfl
  have hpt : "Point ".data = "Point".data ++ Char.ofNat 32 :: [] := by decide
  have hfirst : "Point ".data ++ pyNatStr (i + 1)
      = "Point".data ++ Char.ofNat 32 :: pyNatStr (i + 1) := by
    rw [hpt]; simp
  have hnsp : Char.ofNat 32 ∉ "Point".data := by decide
  have hsplit2 : splitWhitespace ("Point ".data ++ pyNatStr (i + 1))
      = ["Point".data, pyNatStr (i + 1)] := by
    unfold splitWhitespace
    rw [hfirst, splitOnChar_append _ _ _ hnsp,
      splitOnChar_of_not_mem _ _ (space_not_mem_pyNatStr (i + 1))]
    have h1 : ("Point".data.isEmpty = false) := by decide
    have h2 : (pyNatStr (i + 1)).isEmpty = false := by
      simp [List.isEmpty_iff, pyNatStr_ne_nil (i + 1)]
    simp [List.filter, h1, h2]
  unfold parse_point_index
  simp only [hsplit1, hsplit2, List.getElem?_cons_succ, List.getElem?_cons_zero,
    pyParseInt_pyNatStr]
  congr 1
  push_cast
  ring

lemma point_options_getD (detections : List Detection) (i : ℕ)
    (h : i < detections.length) :
    (point_options detections).getD i []
      = formatLabel i (detections.get ⟨i, h⟩) := by
  unfold point_options
  rw [List.getD_eq_getElem?_getD, List.getElem?_map, List.getElem?_enum]
  simp [List.getElem?_eq_getElem h]

lemma pytrunc_of_nonneg {q : ℚ} (h : 0 ≤ q) : pytrunc q = ⌊q⌋ := if_pos h

lemma floor_sub_round_bound (a b : ℚ) : |⌊a + b⌋ - ⌊a⌋ - round b| ≤ 1 := by
  have h1 : (⌊a + b⌋ : ℚ) ≤ a + b := Int.floor_le _
  have h2 : a + b - 1 < (⌊a + b⌋ : ℚ) := Int.sub_one_lt_floor _
  have h3 : (⌊a⌋ : ℚ) ≤ a := Int.floor_le a
  have h4 : a - 1 < (⌊a⌋ : ℚ) := Int.sub_one_lt_floor a
  have h5 : |b - round b| ≤ 1 / 2 := abs_sub_round b
  rw [abs_le] at h5
  have hcast : ((⌊a + b⌋ - ⌊a⌋ - round b : ℤ) : ℚ)
      = ((⌊a + b⌋ : ℚ) - (⌊a⌋ : ℚ) - (round b : ℚ)) := by push_cast; ring
  have hub : (⌊a + b⌋ - ⌊a⌋ - round b : ℤ) < 2 := by
    have : ((⌊a + b⌋ - ⌊a⌋ - round b : ℤ) : ℚ) < 2 := by
      rw [hcast]; linarith [h5.1, h5.2]
    exact_mod_cast this
  have hlb : (-2 : ℤ) < ⌊a + b⌋ - ⌊a⌋ - round b := by
    have : (-2 : ℚ) < ((⌊a + b⌋ - ⌊a⌋ - round b : ℤ) : ℚ) := by
      rw [hcast]; linarith [h5.1, h5.2]
    exact_mod_cast this
  rw [abs_le]
  omega

/-! ### Claim theorems -/

/-- C1: for every image height and every detection y-coordinate y in
[0, H], the forward rendering transform (plotted y = H - y) composed with
the inverse click-mapping transform (image y = H - clicked y) is the
identity, so a click at a plotted position reports back exactly the
image-space y. -/
theorem render_click_round_trip (imageHeight y : ℚ)
    (h0 : 0 ≤ y) (h1 : y ≤ imageHeight) :
    click_to_image_y imageHeight (plotted_y imageHeight y) = y := by
  simp [click_to_image_y, plotted_y]

/-- Witness for C1 at imageHeight 600 and y 500. -/
theorem render_click_round_trip_witness : (0 : ℚ) ≤ 500 ∧ (500 : ℚ) ≤ 600 ∧
    click_to_image_y 600 (plotted_y 600 500) = 500 :=
  ⟨by norm_num, by norm_num,
    render_click_round_trip 600 500 (by norm_num) (by norm_num)⟩

/-- C2: whenever the drawn object list is present and its last element is
a rectangle, the ROI selector returns exactly
(trunc(left sx), trunc(top sy), trunc((left+width) sx),
trunc((top+height) sy)) with sx = imageWidth / canvasPixelWidth and
sy = imageHeight / canvasPixelHeight: each corner is scaled independently
and the bottom-right corner is formed before scaling. -/
theorem roi_coords_formula (imageWidth imageHeight : ℚ) (cr : CanvasResult)
    (objects : List CanvasObject) (rect : CanvasObject)
    (hjson : cr.json_data = some objects)
    (hlast : objects.getLast? = some rect)
    (htype : rect.type = "rect") :
    draw_roi_selector_result imageWidth imageHeight cr =
      some (pytrunc (rect.left * (imageWidth / cr.shape1)),
            pytrunc (rect.top * (imageHeight / cr.shape0)),
            pytrunc ((rect.left + rect.width) * (imageWidth / cr.shape1)),
            pytrunc ((rect.top + rect.height) * (imageHeight / cr.shape0))) := by
  simp [draw_roi_selector_result, hjson, hlast, htype, remapRect]

/-- Witness for C2 on a 50 by 40 canvas for a 100 by 80 image. -/
theorem roi_coords_formula_witness :
    (CanvasResult.json_data ⟨some [⟨"rect", 3, 4, 10, 12⟩], 40, 50⟩
        = some [⟨"rect", 3, 4, 10, 12⟩]) ∧
    draw_roi_selector_result 100 80 ⟨some [⟨"rect", 3, 4, 10, 12⟩], 40, 50⟩ =
      some (pytrunc ((3 : ℚ) * (100 / 50)), pytrunc ((4 : ℚ) * (80 / 40)),
            pytrunc (((3 : ℚ) + 10) * (100 / 50)),
            pytrunc (((4 : ℚ) + 12) * (80 / 40))) :=
  ⟨rfl, roi_coords_formula 100 80 ⟨some [⟨"rect", 3, 4, 10, 12⟩], 40, 50⟩
    [⟨"rect", 3, 4, 10, 12⟩] ⟨"rect", 3, 4, 10, 12⟩ rfl rfl rfl⟩

/-- C3: for every index i below the number of detections, parsing the
generated label of detection i (split on the colon, read the numeral
after the word Point, subtract one) recovers exactly i: an exact
integer to label to integer round trip. -/
theorem label_index_round_trip (detections : List Detection) (i : ℕ)
    (h : i < detections.length) :
    parse_point_index ((point_options detections).getD i [])
      = some (i : ℤ) := by
  rw [point_options_getD detections i h, parse_formatLabel]

/-- Witness for C3 at index 1 of a two-detection list. -/
theorem label_index_round_trip_witness :
    1 < ([⟨1, 2, 1, false, ""⟩, ⟨3, 4, 1, false, ""⟩] : List Detection).length ∧
    parse_point_index ((point_options
        [⟨1, 2, 1, false, ""⟩, ⟨3, 4, 1, false, ""⟩]).getD 1 []) = some 1 :=
  ⟨by decide, label_index_round_trip
    [⟨1, 2, 1, false, ""⟩, ⟨3, 4, 1, false, ""⟩] 1 (by decide)⟩

/-- C4: the marker color follows the fixed precedence: manual flag first
(the added color, green), then method containing grid (red), then method
containing roi (blue), then the default (red); in particular a manual
detection whose method is grid is colored green, not with the grid
color. -/
theorem point_color_precedence (d : Detection) :
    (d.manual = true → point_color d = "green") ∧
    (d.manual = false → strContains "grid" d.method = true →
      point_color d = "red") ∧
    (d.manual = false → strContains "grid" d.method = false →
      strContains "roi" d.method = true → point_color d = "blue") ∧
    (d.manual = false → strContains "grid" d.method = false →
      strContains "roi" d.method = false → point_color d = "red") ∧
    point_color { d with manual := true, method := "grid" } = "green" ∧
    point_color { d with manual := true, method := "grid" } ≠ "red" := by
  refine ⟨fun h => by simp [point_color, h],
    fun h1 h2 => by simp [point_color, h1, h2],
    fun h1 h2 h3 => by simp [point_color, h1, h2, h3],
    fun h1 h2 h3 => by simp [point_color, h1, h2, h3],
    by simp [point_color],
    by simp [point_color]⟩

/-- Witness for C4 on a manual detection with method grid. -/
theorem point_color_precedence_witness :
    (Detection.manual ⟨0, 0, 1, true, "grid"⟩ = true) ∧
    point_color ⟨0, 0, 1, true, "grid"⟩ = "green" :=
  ⟨rfl, (point_color_precedence ⟨0, 0, 1, true, "grid"⟩).1 rfl⟩

/-- C5: for a drawn rectangle with nonnegative canvas coordinates and
positive scale factors, the width reconstructed from the two
independently truncated corners differs from the directly
scaled-and-rounded width by at most one, and likewise vertically. -/
theorem roi_remap_scale_consistent (imageWidth imageHeight shape1 shape0 : ℚ)
    (rect : CanvasObject) (hl : 0 ≤ rect.left) (ht : 0 ≤ rect.top)
    (hw : 0 ≤ rect.width) (hh : 0 ≤ rect.height)
    (hsx : 0 < imageWidth / shape1) (hsy : 0 < imageHeight / shape0) :
    |((remapRect imageWidth imageHeight shape1 shape0 rect).2.2.1
        - (remapRect imageWidth imageHeight shape1 shape0 rect).1)
        - round (rect.width * (imageWidth / shape1))| ≤ 1 ∧
    |((remapRect imageWidth imageHeight shape1 shape0 rect).2.2.2
        - (remapRect imageWidth imageHeight shape1 shape0 rect).2.1)
        - round (rect.height * (imageHeight / shape0))| ≤ 1 := by
  constructor
  · show |(pytrunc ((rect.left + rect.width) * (imageWidth / shape1))
        - pytrunc (rect.left * (imageWidth / shape1)))
        - round (rect.width * (imageWidth / shape1))| ≤ 1
    rw [pytrunc_of_nonneg (mul_nonneg hl hsx.le),
      pytrunc_of_nonneg (mul_nonneg (by linarith) hsx.le), add_mul]
    exact floor_sub_round_bound (rect.left * (imageWidth / shape1))
      (rect.width * (imageWidth / shape1))
  · show |(pytrunc ((rect.top + rect.height) * (imageHeight / shape0))
        - pytrunc (rect.top * (imageHeight / shape0)))
        - round (rect.height * (imageHeight / shape0))| ≤ 1
    rw [pytrunc_of_nonneg (mul_nonneg ht hsy.le),
      pytrunc_of_nonneg (mul_nonneg (by linarith) hsy.le), add_mul]
    exact floor_sub_round_bound (rect.top * (imageHeight / shape0))
      (rect.height * (imageHeight / shape0))

/-- Witness for C5 on a 50 by 40 canvas for a 100 by 80 image. -/
theorem roi_remap_scale_consistent_witness :
    (0 : ℚ) ≤ 3 ∧ (0 : ℚ) ≤ 4 ∧ (0 : ℚ) ≤ 10 ∧ (0 : ℚ) ≤ 12 ∧
    (0 : ℚ) < 100 / 50 ∧ (0 : ℚ) < 80 / 40 ∧
    (|((remapRect 100 80 50 40 ⟨"rect", 3, 4, 10, 12⟩).2.2.1
        - (remapRect 100 80 50 40 ⟨"rect", 3, 4, 10, 12⟩).1)
        - round ((10 : ℚ) * (100 / 50))| ≤ 1 ∧
      |((remapRect 100 80 50 40 ⟨"rect", 3, 4, 10, 12⟩).2.2.2
        - (remapRect 100 80 50 40 ⟨"rect", 3, 4, 10, 12⟩).2.1)
        - round ((12 : ℚ) * (80 / 40))| ≤ 1) :=
  ⟨by norm_num, by norm_num, by norm_num, by norm_num, by norm_num,
    by norm_num,
    roi_remap_scale_consistent 100 80 50 40 ⟨"rect", 3, 4, 10, 12⟩
      (by norm_num) (by norm_num) (by norm_num) (by norm_num)
      (by norm_num) (by norm_num)⟩

/-- C6: the ROI selector returns a rectangle computed only from the last
drawn object (earlier rectangles are ignored), returns none when
json_data is absent, when no object has been drawn, or when the last
object is not a rectangle, and for every object list whose last entry is
a rectangle that entry determines the result. -/
theorem roi_last_rect_determines (imageWidth imageHeight shape0 shape1 : ℚ) :
    (draw_roi_selector_result imageWidth imageHeight ⟨none, shape0, shape1⟩
      = none) ∧
    (draw_roi_selector_result imageWidth imageHeight ⟨some [], shape0, shape1⟩
      = none) ∧
    (∀ (objects objects2 : List CanvasObject) (rect : CanvasObject),
      objects.getLast? = some rect → objects2.getLast? = some rect →
      draw_roi_selector_result imageWidth imageHeight
          ⟨some objects, shape0, shape1⟩ =
        draw_roi_selector_result imageWidth imageHeight
          ⟨some objects2, shape0, shape1⟩) ∧
    (∀ (objects : List CanvasObject) (rect : CanvasObject),
      objects.getLast? = some rect → rect.type = "rect" →
      draw_roi_selector_result imageWidth imageHeight
          ⟨some objects, shape0, shape1⟩ =
        some (remapRect imageWidth imageHeight shape1 shape0 rect)) ∧
    (∀ (objects : List CanvasObject) (rect : CanvasObject),
      objects.getLast? = some rect → rect.type ≠ "rect" →
      draw_roi_selector_result imageWidth imageHeight
          ⟨some objects, shape0, shape1⟩ = none) := by
  refine ⟨rfl, rfl, ?_, ?_, ?_⟩
  · intro objects objects2 rect h1 h2
    simp [draw_roi_selector_result, h1, h2]
  · intro objects rect h1 h2
    simp [draw_roi_selector_result, h1, h2]
  · intro objects rect h1 h2
    simp [draw_roi_selector_result, h1, h2]

/-- Witness for C6: a two-object list whose last entry is a rectangle. -/
theorem roi_last_rect_determines_witness :
    ([⟨"line", 0, 0, 1, 1⟩, (⟨"rect", 3, 4, 10, 12⟩ : CanvasObject)].getLast?
        = some ⟨"rect", 3, 4, 10, 12⟩) ∧
    draw_roi_selector_result 100 80
        ⟨some [⟨"line", 0, 0, 1, 1⟩, ⟨"rect", 3, 4, 10, 12⟩], 40, 50⟩ =
      some (remapRect 100 80 50 40 ⟨"rect", 3, 4, 10, 12⟩) :=
  ⟨rfl, (roi_last_rect_determines 100 80 40 50).2.2.2.1
    [⟨"line", 0, 0, 1, 1⟩, ⟨"rect", 3, 4, 10, 12⟩] ⟨"rect", 3, 4, 10, 12⟩
    rfl rfl⟩

/-- C7: with an empty detection list the remove flow is inert: the call
returns a result (it does not raise), and absent an add interaction the
returned action and index are both none. -/
theorem edit_points_empty_inert (image_size : ℚ × ℚ) (add_x add_y : ℚ)
    (remove_pressed : Bool) (selected_index : ℕ) :
    (edit_points_interface [] image_size false add_x add_y remove_pressed
        selected_index = some ⟨none, none, none⟩) ∧
    ∀ add_pressed : Bool,
      (edit_points_interface [] image_size add_pressed add_x add_y
        remove_pressed selected_index).isSome = true := by
  constructor
  · simp [edit_points_interface]
  · intro ap
    cases ap <;> simp [edit_points_interface]

/-- C8: the drawable surface width is imageWidth scaled by
height / imageHeight exactly when the image is taller than the requested
display height, and exactly imageWidth otherwise; the image is never
upscaled. -/
theorem st_canvas_width_fit (imageWidth imageHeight height : ℚ) :
    (imageHeight > height →
      st_canvas_width imageWidth imageHeight height
        = imageWidth * (height / imageHeight)) ∧
    (imageHeight ≤ height →
      st_canvas_width imageWidth imageHeight height = imageWidth) ∧
    (0 ≤ imageWidth → 0 < imageHeight → 0 < height →
      st_canvas_width imageWidth imageHeight height ≤ imageWidth) := by
  refine ⟨fun h => by simp [st_canvas_width, h], fun h => by
    simp [st_canvas_width, not_lt.mpr h], fun hw hih hht => ?_⟩
  by_cases hc : imageHeight > height
  · rw [st_canvas_width, if_pos hc]
    have hle : height / imageHeight ≤ 1 := (div_le_one hih).mpr hc.le
    exact mul_le_of_le_one_right hw hle
  · simp [st_canvas_width, hc]

/-- Witness for C8 on an 800-tall image shown at display height 600. -/
theorem st_canvas_width_fit_witness : (800 : ℚ) > 600 ∧
    st_canvas_width 600 800 600 = 600 * (600 / 800) :=
  ⟨by norm_num, (st_canvas_width_fit 600 800 600).1 (by norm_num)⟩

/-- C9: when no click occurred, or neither the add nor the remove mode is
active, or editing is disabled, the point-overlay component returns the
result with every field none. -/
theorem display_no_interaction_none (imageHeight : ℚ)
    (detections : List Detection) (height : ℚ)
    (enable_editing add_mode remove_mode roi_mode : Bool)
    (clicked_data : Option ClickData)
    (h : enable_editing = false ∨ clicked_data = none ∨
      (add_mode = false ∧ remove_mode = false)) :
    display_image_with_points imageHeight detections height enable_editing
      add_mode remove_mode roi_mode clicked_data = ⟨none, none, none⟩ := by
  rcases h with h | h | ⟨h1, h2⟩
  · subst h; rfl
  · subst h
    cases enable_editing <;> rfl
  · subst h1; subst h2
    cases enable_editing <;> cases clicked_data <;> rfl

/-- Witness for C9 with editing disabled. -/
theorem display_no_interaction_none_witness :
    ((false : Bool) = false ∨ (none : Option ClickData) = none ∨
      ((true : Bool) = false ∧ (true : Bool) = false)) ∧
    display_image_with_points 600 [] 600 false true true false none
      = ⟨none, none, none⟩ :=
  ⟨Or.inl rfl,
    display_no_interaction_none 600 [] 600 false true true false none
      (Or.inl rfl)⟩

/-- C10: when a click is registered and the add and remove triggers are
both active, the add branch wins: the clicked coordinate pair is
returned with its y inverse-transformed and the action is add, never
remove. -/
theorem display_add_mode_precedence (imageHeight : ℚ)
    (detections : List Detection) (height : ℚ) (roi_mode : Bool)
    (click_data : ClickData) :
    display_image_with_points imageHeight detections height true
      true true roi_mode (some click_data) =
      ⟨some (click_data.x, click_to_image_y imageHeight click_data.y),
        some "add", none⟩ := rfl
